import Mathlib

/-!
Verification of `app_tarea/index.js`.

A shallow embedding of the Express service in `src/app_tarea/index.js`: the
authentication middleware `autenticarToken`, the `/register` and `/login`
handlers over `users.json`, and the task handlers over `tareas.json`.

Conventions of the embedding.

* A JavaScript value that the handlers only ever use as "a string, or nothing"
  is an `Option String`; `none` stands for `undefined` (and `null`, which every
  modelled operation treats the same way).
* The two files are the arrays they hold after `JSON.parse`; a handler returns
  its reply together with the array it handed to `guardar*`, if it saved.
* `bcryptjs` and `jsonwebtoken` are parameters (`Bcrypt`, `Jwt`); the salt that
  `bcrypt.hash` draws and the clock that `jsonwebtoken` reads are arguments.
-/

namespace AppTarea

/-! ## Values and replies -/

/-- Line 7: `const SECRET_KEY`. -/
def SECRET_KEY : String := "clave_secreta_no_usar_en_produccion"

/-- JavaScript truthiness of a string-or-undefined value: `undefined` and `''`
are falsy, every other string is truthy. -/
def truthy : Option String → Bool
  | none => false
  | some s => decide (s ≠ "")

/-- A record of `tareas.json`. -/
structure Tarea where
  id : Nat
  titulo : String
  descripcion : String
  deriving DecidableEq, Repr

/-- A record of `users.json`; `password` holds the bcrypt digest. -/
structure Usuario where
  id : Nat
  email : String
  password : String
  deriving DecidableEq, Repr

/-- The JSON bodies the service sends. -/
inductive Cuerpo where
  | message (message : String)
  | messageToken (message : String) (token : String)
  | messageTarea (message : String) (tarea : Tarea)
  | tareas (tareas : List Tarea)
  deriving DecidableEq, Repr

/-- The effect of `res.status(status).json(body)`; `res.json(body)` alone sends
status 200. -/
structure Respuesta where
  status : Nat
  body : Cuerpo
  deriving DecidableEq, Repr

/-! ## jsonwebtoken -/

/-- The object handed to `jwt.sign` in `/login`: `{ id, email }`. -/
structure Payload where
  id : Nat
  email : String
  deriving DecidableEq, Repr

/-- The decoded payload `jwt.verify` passes to its callback: the signed claims
together with the `iat` and `exp` stamps that `expiresIn` adds. -/
structure Claims where
  id : Nat
  email : String
  iat : Nat
  exp : Nat
  deriving DecidableEq, Repr

/-- The reasons for which `jwt.verify` calls back with an error. -/
inductive JwtError where
  | malformed
  | invalidSignature
  | expired
  deriving DecidableEq, Repr

/-- The two functions of `jsonwebtoken` the service calls.
`sign payload secret expiresIn now` is `jwt.sign(payload, secret, { expiresIn })`
evaluated at clock `now` (seconds); `verify token secret now` is the argument
pair `(err, user)` with which `jwt.verify(token, secret, callback)` invokes its
callback, once and synchronously for a string secret. -/
structure Jwt where
  sign : Payload → String → String → Nat → String
  verify : String → String → Nat → Except JwtError Claims

/-! ## The middleware -/

/-- The method `String.prototype.split` for a one-character separator, on the
characters of the string: the segments between successive occurrences of `sep`. -/
def split (sep : Char) : List Char → List (List Char)
  | [] => [[]]
  | c :: cs =>
    if c = sep then [] :: split sep cs
    else
      match split sep cs with
      | [] => [[c]]
      | seg :: rest => (c :: seg) :: rest

/-- What `autenticarToken` did with a request: the reply it sent if any, the
tokens it handed to `jwt.verify`, how many times it called `next`, and the
value of `req.user` when it is done. -/
structure Efectos where
  respuesta : Option Respuesta
  verificados : List String
  next : Nat
  user : Option Claims
  deriving DecidableEq, Repr

/-- Line 204: `authHeader && authHeader.split(' ')[1]`. A falsy `authHeader`
(`undefined` or `''`) is the value of the conjunction; otherwise the value is
element 1 of the split, `undefined` when there is none. -/
def extraerToken (authHeader : Option String) : Option String :=
  match authHeader with
  | none => none
  | some h =>
    if h = "" then some ""
    else ((split ' ' h.data).get? 1).map String.mk

/-- Lines 202-222: `autenticarToken(req, res, next)`, with `authHeader` the
value of `req.headers['authorization']`, `user` the value of `req.user` on
entry and `now` the clock `jwt.verify` reads. -/
def autenticarToken (jwt : Jwt) (now : Nat) (authHeader : Option String)
    (user : Option Claims) : Efectos :=
  let token := extraerToken authHeader
  if !truthy token then
    { respuesta := some ⟨401, .message "Token requerido"⟩,
      verificados := [], next := 0, user := user }
  else
    let token := token.getD ""
    match jwt.verify token SECRET_KEY now with
    | .error _ =>
      { respuesta := some ⟨403, .message "Token inválido"⟩,
        verificados := [token], next := 0, user := user }
    | .ok decoded =>
      { respuesta := none, verificados := [token], next := 1, user := some decoded }

/-- The three terminal states of the gate. -/
inductive Terminal where
  | rejected401
  | rejected403
  | passedThrough (identity : Claims)
  deriving DecidableEq, Repr

/-- Reads the terminal state off the observed effects: a 401 or 403 reply with
`next` never called, or no reply with `next` called once and `req.user` set.
Any other combination of effects is not a terminal state. -/
def terminal (e : Efectos) : Option Terminal :=
  match e.respuesta, e.next, e.user with
  | some r, 0, _ =>
    if r = ⟨401, .message "Token requerido"⟩ then some .rejected401
    else if r = ⟨403, .message "Token inválido"⟩ then some .rejected403
    else none
  | none, 1, some c => some (.passedThrough c)
  | _, _, _ => none

/-- The form the specification names for the header, `Bearer <token>`: the
word `Bearer`, one space, and at least one more character. -/
def formaBearer (h : String) : Bool :=
  decide (h.data.take 7 = "Bearer ".data) && decide (7 < h.data.length)

/-! ## bcryptjs and the user store -/

/-- The two functions of `bcryptjs` the service calls. `hash s rounds salt` is
the digest `bcrypt.hash(s, rounds)` resolves to when the salt it generates for
the call is `salt`; `compare s digest` is what `bcrypt.compare(s, digest)`
resolves to for two strings. -/
structure Bcrypt where
  hash : String → Nat → String → String
  compare : String → String → Bool

/-- The call `bcrypt.compare(s, hash)` as `/login` makes it: `bcryptjs` rejects
with "Illegal arguments" when `s` is not a string (`none` here), and resolves to
a boolean otherwise. -/
def bcryptCompare (bc : Bcrypt) (s : Option String) (hash : String) : Option Bool :=
  match s with
  | none => none
  | some s => some (bc.compare s hash)

/-- The body of a `/register` or `/login` request after `express.json()`:
`const { email, password } = req.body`. -/
structure Credenciales where
  email : Option String
  password : Option String
  deriving DecidableEq, Repr

/-- What a handler over one of the two files did: the reply it sent (`none`
when its promise rejected before replying) and the array it passed to
`guardarTareas` / `guardarUsuarios`, `none` when it did not save. -/
structure Resultado (α : Type) where
  respuesta : Option Respuesta
  guardado : Option (List α)

/-- The content of the file after the handler: what it saved, or the previous
content when it did not save. -/
def archivo {α : Type} (antes : List α) (r : Resultado α) : List α :=
  r.guardado.getD antes

/-- The strict equality `s === v` of a stored string with a request value. -/
def strictEq (s : String) (v : Option String) : Bool :=
  v == some s

/-- Lines 77-109: `app.post('/register', ...)` on the array `usuarios` read
from `users.json`, with `salt` the salt `bcrypt.hash` draws. -/
def postRegister (bc : Bcrypt) (usuarios : List Usuario) (body : Credenciales)
    (salt : String) : Resultado Usuario :=
  if !truthy body.email || !truthy body.password then
    ⟨some ⟨400, .message "Email y contraseña son obligatorios"⟩, none⟩
  else
    let email := body.email.getD ""
    let password := body.password.getD ""
    let existe := usuarios.find? (fun u => strictEq u.email body.email)
    if existe.isSome then
      ⟨some ⟨400, .message "El usuario ya existe"⟩, none⟩
    else
      let passwordHash := bc.hash password 10 salt
      let nuevoUsuario : Usuario :=
        { id := usuarios.length + 1, email := email, password := passwordHash }
      let usuarios := usuarios ++ [nuevoUsuario]
      ⟨some ⟨201, .message "Usuario registrado correctamente"⟩, some usuarios⟩

/-- Lines 113-146: `app.post('/login', ...)` on the array `usuarios` read from
`users.json`, with `now` the clock `jwt.sign` reads. -/
def postLogin (bc : Bcrypt) (jwt : Jwt) (now : Nat) (usuarios : List Usuario)
    (body : Credenciales) : Resultado Usuario :=
  match usuarios.find? (fun u => strictEq u.email body.email) with
  | none => ⟨some ⟨401, .message "Credenciales inválidas"⟩, none⟩
  | some usuario =>
    match bcryptCompare bc body.password usuario.password with
    | none => ⟨none, none⟩
    | some passwordValida =>
      if !passwordValida then
        ⟨some ⟨401, .message "Credenciales inválidas"⟩, none⟩
      else
        let token := jwt.sign ⟨usuario.id, usuario.email⟩ SECRET_KEY "1h" now
        ⟨some ⟨200, .messageToken "Login exitoso" token⟩, none⟩

/-- A request to one of the two routes over `users.json`, with the salt or the
clock its handler draws. -/
inductive Peticion where
  | register (body : Credenciales) (salt : String)
  | login (body : Credenciales) (now : Nat)
  deriving DecidableEq, Repr

/-- The content of `users.json` after one request has been handled to
completion on the content `usuarios`. -/
def atender (bc : Bcrypt) (jwt : Jwt) (usuarios : List Usuario) : Peticion → List Usuario
  | .register body salt => archivo usuarios (postRegister bc usuarios body salt)
  | .login body now => archivo usuarios (postLogin bc jwt now usuarios body)

/-- The content of `users.json` after the requests `ps` have been handled one
after the other, starting from the empty array. -/
def ejecutar (bc : Bcrypt) (jwt : Jwt) (ps : List Peticion) : List Usuario :=
  ps.foldl (atender bc jwt) []

/-- The specification's invariant of the user store: two records at different
places of the array have different emails. -/
def emailsDistintos (usuarios : List Usuario) : Prop :=
  usuarios.Pairwise (fun u v => u.email ≠ v.email)

/-- The record the specification's `findByEmail` names: `u` is the first
record of `usuarios` whose email is `email`. -/
def PrimerUsuario (usuarios : List Usuario) (email : String) (u : Usuario) : Prop :=
  ∃ antes despues, usuarios = antes ++ u :: despues ∧ u.email = email
    ∧ ∀ v ∈ antes, v.email ≠ email

/-! ## The task handlers -/

/-- The white space `parseInt` skips (ECMAScript `StrWhiteSpaceChar`). -/
def esEspacio (c : Char) : Bool :=
  c.toNat ∈ [0x09, 0x0A, 0x0B, 0x0C, 0x0D, 0x20, 0xA0, 0x1680, 0x2028, 0x2029,
    0x202F, 0x205F, 0x3000, 0xFEFF] ∨ (0x2000 ≤ c.toNat ∧ c.toNat ≤ 0x200A)

/-- The value of a character as a digit, letters counting from ten. -/
def valorDigito (c : Char) : Option Nat :=
  if 48 ≤ c.toNat ∧ c.toNat ≤ 57 then some (c.toNat - 48)
  else if 97 ≤ c.toNat ∧ c.toNat ≤ 122 then some (c.toNat - 87)
  else if 65 ≤ c.toNat ∧ c.toNat ≤ 90 then some (c.toNat - 55)
  else none

/-- Reads the longest run of radix-`R` digits at the head of the characters;
`acc` is the value read so far, `none` while no digit has been read. -/
def leerDigitos (R : Nat) : List Char → Option Nat → Option Nat
  | [], acc => acc
  | c :: cs, acc =>
    match valorDigito c with
    | none => acc
    | some d => if d < R then leerDigitos R cs (some (acc.getD 0 * R + d)) else acc

/-- The call `parseInt(s)` without a radix: skip white space, take a sign, take
a `0x` / `0X` mark for radix 16, read the digits. `none` is `NaN`. The value is
the exact integer, as `parseInt` returns for every numeral below 2^53. -/
def parseInt (s : String) : Option Int :=
  let S := s.data.dropWhile esEspacio
  let signo : Int × List Char :=
    match S with
    | '-' :: r => (-1, r)
    | '+' :: r => (1, r)
    | _ => (1, S)
  let base : Nat × List Char :=
    match signo.2 with
    | '0' :: 'x' :: r => (16, r)
    | '0' :: 'X' :: r => (16, r)
    | _ => (10, signo.2)
  (leerDigitos base.1 base.2 none).map (fun n => signo.1 * (n : Int))

/-- The strict equality `t.id === id` of a stored id with a `parseInt` result;
`NaN` equals nothing. -/
def idEq (tid : Nat) (id : Option Int) : Bool :=
  id == some (tid : Int)

/-- The body of a `POST /tareas` or `PUT /tareas/:id` request:
`const { titulo, descripcion } = req.body`. -/
structure Campos where
  titulo : Option String
  descripcion : Option String
  deriving DecidableEq, Repr

/-- Lines 39-42: `app.get('/tareas', autenticarToken, ...)`: the reply the
client receives, from the gate or, when the gate called `next`, from the
handler. -/
def getTareas (jwt : Jwt) (now : Nat) (authHeader : Option String)
    (tareas : List Tarea) : Option Respuesta :=
  let e := autenticarToken jwt now authHeader none
  if e.next = 0 then e.respuesta
  else some ⟨200, .tareas tareas⟩

/-- Lines 48-72: `app.post('/tareas', ...)`. -/
def postTareas (tareas : List Tarea) (body : Campos) : Resultado Tarea :=
  if !truthy body.titulo || !truthy body.descripcion then
    ⟨some ⟨400, .message "Titulo y descripcion son obligatorios"⟩, none⟩
  else
    let nuevaTarea : Tarea :=
      { id := tareas.length + 1, titulo := body.titulo.getD "",
        descripcion := body.descripcion.getD "" }
    let tareas := tareas ++ [nuevaTarea]
    ⟨some ⟨201, .messageTarea "Tarea creada correctamente" nuevaTarea⟩, some tareas⟩

/-- The array after the object `Array.prototype.find` returned for `p` has been
assigned to in place: the first element satisfying `p` becomes `f` of itself. -/
def mutarPrimero (p : Tarea → Bool) (f : Tarea → Tarea) : List Tarea → List Tarea
  | [] => []
  | t :: ts => if p t then f t :: ts else t :: mutarPrimero p f ts

/-- Lines 152-174: `app.put('/tareas/:id', ...)`, with `idParam` the value of
`req.params.id`. -/
def putTareas (tareas : List Tarea) (idParam : String) (body : Campos) :
    Resultado Tarea :=
  let id := parseInt idParam
  match tareas.find? (fun t => idEq t.id id) with
  | none => ⟨some ⟨404, .message "Tarea no encontrada"⟩, none⟩
  | some tarea =>
    let asignar : Tarea → Tarea := fun t =>
      { t with titulo := body.titulo.getD t.titulo,
               descripcion := body.descripcion.getD t.descripcion }
    let tareas := mutarPrimero (fun t => idEq t.id id) asignar tareas
    ⟨some ⟨200, .messageTarea "Tarea actualizada correctamente" (asignar tarea)⟩,
      some tareas⟩

/-- Lines 179-196: `app.delete('/tareas/:id', ...)`, with `idParam` the value
of `req.params.id`. -/
def deleteTareas (tareas : List Tarea) (idParam : String) : Resultado Tarea :=
  let id := parseInt idParam
  let nuevasTareas := tareas.filter (fun t => !idEq t.id id)
  if tareas.length = nuevasTareas.length then
    ⟨some ⟨404, .message "Tarea no encontrada"⟩, none⟩
  else
    ⟨some ⟨200, .message "Tarea eliminada correctamente"⟩, some nuevasTareas⟩

/-! ## Decimal numerals

The route parameter of `PUT` and `DELETE /tareas/:id` is text; these two
definitions describe the numerals a client writes for an id. -/

/-- A decimal digit character, `0` to `9`. -/
def esCifra (c : Char) : Prop := 48 ≤ c.toNat ∧ c.toNat ≤ 57

/-- The value of a run of decimal digits read after the value `a`. -/
def valor (a : Nat) (l : List Char) : Nat :=
  l.foldl (fun a c => a * 10 + (c.toNat - 48)) a

/-! ## Reference instances of the two libraries

Transparent stand-ins on which the handlers can be run on concrete requests. -/

/-- Counts the copies of `c` at the head of the characters and returns the
count with the characters that follow. -/
def contar (c : Char) : List Char → Nat × List Char
  | [] => (0, [])
  | x :: xs => if x = c then ((contar c xs).1 + 1, (contar c xs).2) else (0, x :: xs)

/-- A token service in the clear: the token for `{ id, email }` issued at `now`
is `id` letters `i`, a dot, `now` letters `n`, a dot, and the email; it is
accepted strictly before one hour (3600 s) after its issue. -/
def jwtModelo : Jwt where
  sign := fun p _ _ now =>
    String.mk (List.replicate p.id 'i' ++ '.' :: (List.replicate now 'n' ++ '.' :: p.email.data))
  verify := fun token _ now =>
    match contar 'i' token.data with
    | (id, '.' :: r) =>
      match contar 'n' r with
      | (iat, '.' :: e) =>
        if now < iat + 3600 then .ok ⟨id, String.mk e, iat, iat + 3600⟩
        else .error .expired
      | _ => .error .malformed
    | _ => .error .malformed

/-- A hasher in the clear: the digest is the plaintext, a dollar sign and the
salt; a plaintext matches the digests that start with it and a dollar sign. -/
def bcryptModelo : Bcrypt where
  hash := fun s _ salt => s ++ "$" ++ salt
  compare := fun s digest => decide (digest.data.take (s.data.length + 1) = s.data ++ ['$'])


/-! ## The middleware: lemmas -/

theorem truthy_eq_false_iff (v : Option String) :
    truthy v = false ↔ v = none ∨ v = some "" := by
  cases v with
  | none => simp [truthy]
  | some s => simp [truthy]

theorem split_ne_nil (sep : Char) (cs : List Char) : split sep cs ≠ [] := by
  cases cs with
  | nil => simp [split]
  | cons c cs =>
    unfold split
    split
    · simp
    · split <;> simp

theorem split_append_sep (sep : Char) (w r : List Char) (hw : sep ∉ w) :
    split sep (w ++ sep :: r) = w :: split sep r := by
  induction w with
  | nil => simp [split]
  | cons c w ih =>
    have hc : c ≠ sep := fun h => hw (by simp [h])
    have hw2 : sep ∉ w := fun h => hw (by simp [h])
    simp [split, hc, ih hw2]

theorem extraerToken_falsy (authHeader : Option String)
    (h : authHeader = none ∨ ∃ s, authHeader = some s ∧
      ∀ seg, (split ' ' s.data).get? 1 = some seg → seg = []) :
    truthy (extraerToken authHeader) = false := by
  rw [truthy_eq_false_iff]
  rcases h with h | ⟨s, hs, hseg⟩
  · subst h; left; rfl
  · subst hs
    unfold extraerToken
    by_cases he : s = ""
    · right; simp [he]
    · simp only [he, if_false]
      cases hg : (split ' ' s.data).get? 1 with
      | none => left; rfl
      | some seg =>
        right
        have := hseg seg hg
        subst this
        rfl


theorem autenticarToken_of_falsy (jwt : Jwt) (now : Nat) (authHeader : Option String)
    (user : Option Claims) (h : truthy (extraerToken authHeader) = false) :
    autenticarToken jwt now authHeader user =
      { respuesta := some ⟨401, .message "Token requerido"⟩,
        verificados := [], next := 0, user := user } := by
  simp [autenticarToken, h]

theorem autenticarToken_of_token (jwt : Jwt) (now : Nat) (authHeader : Option String)
    (user : Option Claims) (t : String) (ht : extraerToken authHeader = some t)
    (hne : t ≠ "") :
    autenticarToken jwt now authHeader user =
      match jwt.verify t SECRET_KEY now with
      | .error _ =>
        { respuesta := some ⟨403, .message "Token inválido"⟩,
          verificados := [t], next := 0, user := user }
      | .ok decoded =>
        { respuesta := none, verificados := [t], next := 1, user := some decoded } := by
  simp [autenticarToken, ht, truthy, hne]

/-! ## The middleware: claims -/

/-- C1: when the Authorization header is absent, or present without a non-empty
second segment of its split on a space, `autenticarToken` replies 401 with
message 'Token requerido', hands nothing to the verifier and does not call
`next`; the client of `GET /tareas` receives that 401 and not the tasks. -/
theorem autenticarToken_token_requerido (jwt : Jwt) (now : Nat)
    (authHeader : Option String) (user : Option Claims) (tareas : List Tarea)
    (h : authHeader = none ∨ ∃ s, authHeader = some s ∧
      ∀ seg, (split ' ' s.data).get? 1 = some seg → seg = []) :
    (autenticarToken jwt now authHeader user).respuesta
        = some ⟨401, .message "Token requerido"⟩
      ∧ (autenticarToken jwt now authHeader user).verificados = []
      ∧ (autenticarToken jwt now authHeader user).next = 0
      ∧ getTareas jwt now authHeader tareas = some ⟨401, .message "Token requerido"⟩ := by
  have hf := extraerToken_falsy authHeader h
  simp [getTareas, autenticarToken_of_falsy jwt now authHeader _ hf]

/-- Witness for C1: the header `Bearer` followed by two spaces and a token has
an empty second segment, and is answered 401 without verification. -/
theorem autenticarToken_token_requerido_witness :
    (∀ seg, (split ' ' "Bearer  ii.n.a@b".data).get? 1 = some seg → seg = [])
      ∧ (autenticarToken jwtModelo 1 (some "Bearer  ii.n.a@b") none).respuesta
          = some ⟨401, .message "Token requerido"⟩
      ∧ (autenticarToken jwtModelo 1 (some "Bearer  ii.n.a@b") none).verificados = []
      ∧ (autenticarToken jwtModelo 1 (some "Bearer  ii.n.a@b") none).next = 0
      ∧ getTareas jwtModelo 1 (some "Bearer  ii.n.a@b") [⟨1, "A", "B"⟩]
          = some ⟨401, .message "Token requerido"⟩ :=
  have h : ∀ seg, (split ' ' "Bearer  ii.n.a@b".data).get? 1 = some seg → seg = [] := by
    decide
  ⟨h, autenticarToken_token_requerido jwtModelo 1 (some "Bearer  ii.n.a@b") none
    [⟨1, "A", "B"⟩] (Or.inr ⟨_, rfl, h⟩)⟩

/-- C2: when `autenticarToken` extracts a non-empty token `t`: if verification
of `t` fails, for whatever reason, the gate replies 403 'Token inválido' and
does not call `next`; if it succeeds with claims `c` the gate sets
`req.user = c`, calls `next` once and sends no reply. And every request,
with or without a token, ends in one of the three terminal states, the one its
token decides: 401 for a falsy token, 403 for a rejected one, passed through
with the verified identity otherwise. -/
theorem autenticarToken_terminal (jwt : Jwt) (now : Nat) (user : Option Claims) :
    (∀ (authHeader : Option String) (t : String),
        extraerToken authHeader = some t → t ≠ "" →
        (∀ err, jwt.verify t SECRET_KEY now = .error err →
          autenticarToken jwt now authHeader user =
            { respuesta := some ⟨403, .message "Token inválido"⟩,
              verificados := [t], next := 0, user := user })
        ∧ (∀ c, jwt.verify t SECRET_KEY now = .ok c →
          autenticarToken jwt now authHeader user =
            { respuesta := none, verificados := [t], next := 1, user := some c }))
      ∧ (∀ authHeader : Option String,
          (truthy (extraerToken authHeader) = false
            ∧ terminal (autenticarToken jwt now authHeader user) = some .rejected401)
          ∨ (∃ t err, extraerToken authHeader = some t ∧ t ≠ ""
            ∧ jwt.verify t SECRET_KEY now = .error err
            ∧ terminal (autenticarToken jwt now authHeader user) = some .rejected403)
          ∨ (∃ t c, extraerToken authHeader = some t ∧ t ≠ ""
            ∧ jwt.verify t SECRET_KEY now = .ok c
            ∧ terminal (autenticarToken jwt now authHeader user)
                = some (.passedThrough c))) := by
  refine ⟨?_, ?_⟩
  · intro authHeader t ht hne
    refine ⟨?_, ?_⟩
    · intro err he
      rw [autenticarToken_of_token jwt now authHeader user t ht hne, he]
    · intro c hc
      rw [autenticarToken_of_token jwt now authHeader user t ht hne, hc]
  · intro authHeader
    cases hf : truthy (extraerToken authHeader) with
    | false =>
      left
      refine ⟨rfl, ?_⟩
      rw [autenticarToken_of_falsy jwt now authHeader user hf]
      cases user <;> rfl
    | true =>
      right
      cases ht : extraerToken authHeader with
      | none => rw [ht] at hf; simp [truthy] at hf
      | some t =>
        have hne : t ≠ "" := by
          rw [ht] at hf
          simpa [truthy] using hf
        rw [autenticarToken_of_token jwt now authHeader user t ht hne]
        cases hv : jwt.verify t SECRET_KEY now with
        | error err =>
          left
          refine ⟨t, err, rfl, hne, hv, ?_⟩
          cases user <;> rfl
        | ok c =>
          right
          exact ⟨t, c, rfl, hne, hv, rfl⟩

/-- Witness for C2: on the reference token service at clock 5, the header
`Bearer ii.n.a@b` passes through with the identity of user 2, and the header
`Bearer zz` is answered 403. -/
theorem autenticarToken_terminal_witness :
    autenticarToken jwtModelo 5 (some "Bearer ii.n.a@b") none
        = { respuesta := none, verificados := ["ii.n.a@b"], next := 1,
            user := some ⟨2, "a@b", 1, 3601⟩ }
      ∧ autenticarToken jwtModelo 5 (some "Bearer zz") none
        = { respuesta := some ⟨403, .message "Token inválido"⟩,
            verificados := ["zz"], next := 0, user := none } :=
  ⟨((autenticarToken_terminal jwtModelo 5 none).1 (some "Bearer ii.n.a@b") "ii.n.a@b"
      (by decide) (by decide)).2 ⟨2, "a@b", 1, 3601⟩ rfl,
   ((autenticarToken_terminal jwtModelo 5 none).1 (some "Bearer zz") "zz"
      (by decide) (by decide)).1 .malformed rfl⟩


theorem extraerToken_palabra (palabra resto : String) (h : ' ' ∉ palabra.data) :
    extraerToken (some (palabra ++ " " ++ resto))
      = ((split ' ' resto.data).head?).map String.mk := by
  have hne : palabra ++ " " ++ resto ≠ "" := by
    intro he
    have := congrArg String.data he
    simp at this
  have hd : (palabra ++ " " ++ resto).data = palabra.data ++ ' ' :: resto.data := by
    simp
  unfold extraerToken
  simp only [hne, if_false, hd, split_append_sep ' ' _ _ h]
  cases split ' ' resto.data <;> rfl

/-- C3, as the code behaves: the header `Basic ii.n.a@b` is not of the form
`Bearer <token>`, its second segment is a token the reference service accepts,
and `autenticarToken` passes the request through: it calls `next`, sends no
reply, and `GET /tareas` answers 200 with the tasks. -/
theorem autenticarToken_basic_pasa :
    formaBearer "Basic ii.n.a@b" = false
      ∧ jwtModelo.verify "ii.n.a@b" SECRET_KEY 5 = .ok ⟨2, "a@b", 1, 3601⟩
      ∧ (autenticarToken jwtModelo 5 (some "Basic ii.n.a@b") none).next = 1
      ∧ (autenticarToken jwtModelo 5 (some "Basic ii.n.a@b") none).respuesta = none
      ∧ getTareas jwtModelo 5 (some "Basic ii.n.a@b") [⟨1, "A", "B"⟩]
          = some ⟨200, .tareas [⟨1, "A", "B"⟩]⟩ := by
  refine ⟨by decide, rfl, by decide, by decide, by decide⟩

/-- C3 amended: the gate does not look at the scheme word. For a header made of
any word without a space, one space and a rest, `autenticarToken` does exactly
what it does for `Bearer`, one space and the same rest: same reply, same token
verified, same call of `next`. And for `Bearer`, one space and a token without
a space, the token it extracts is that token. -/
theorem autenticarToken_ignora_esquema (jwt : Jwt) (now : Nat) (user : Option Claims)
    (palabra resto : String) (h : ' ' ∉ palabra.data) :
    autenticarToken jwt now (some (palabra ++ " " ++ resto)) user
        = autenticarToken jwt now (some ("Bearer" ++ " " ++ resto)) user
      ∧ (' ' ∉ resto.data → extraerToken (some ("Bearer" ++ " " ++ resto)) = some resto) := by
  have hb : ' ' ∉ "Bearer".data := by decide
  refine ⟨?_, ?_⟩
  · unfold autenticarToken
    rw [extraerToken_palabra palabra resto h, extraerToken_palabra "Bearer" resto hb]
  · intro hr
    rw [extraerToken_palabra "Bearer" resto hb]
    have : split ' ' resto.data = [resto.data] := by
      have hs : ∀ l : List Char, ' ' ∉ l → split ' ' l = [l] := by
        intro l
        induction l with
        | nil => intro _; rfl
        | cons c l ih =>
          intro hl
          have hc : c ≠ ' ' := fun he => hl (by simp [he])
          have hl2 : ' ' ∉ l := fun he => hl (by simp [he])
          simp [split, hc, ih hl2]
      exact hs _ hr
    rw [this]
    rfl

/-- Witness for C3 amended: `Basic ii.n.a@b` is treated as `Bearer ii.n.a@b`. -/
theorem autenticarToken_ignora_esquema_witness :
    ' ' ∉ "Basic".data
      ∧ autenticarToken jwtModelo 5 (some ("Basic" ++ " " ++ "ii.n.a@b")) none
        = autenticarToken jwtModelo 5 (some ("Bearer" ++ " " ++ "ii.n.a@b")) none :=
  ⟨by decide, (autenticarToken_ignora_esquema jwtModelo 5 none "Basic" "ii.n.a@b"
    (by decide)).1⟩


/-! ## The user store: lemmas -/

theorem strictEq_some (s e : String) : strictEq s (some e) = true ↔ s = e := by
  simp only [strictEq, beq_iff_eq, Option.some.injEq]
  exact eq_comm

theorem find?_email_iff (usuarios : List Usuario) (email : String) (u : Usuario) :
    usuarios.find? (fun u => strictEq u.email (some email)) = some u
      ↔ PrimerUsuario usuarios email u := by
  rw [List.find?_eq_some]
  unfold PrimerUsuario
  constructor
  · rintro ⟨hu, antes, despues, hl, ha⟩
    refine ⟨antes, despues, hl, (strictEq_some _ _).1 hu, ?_⟩
    intro v hv he
    have := ha v hv
    rw [(strictEq_some v.email email).2 he] at this
    simp at this
  · rintro ⟨antes, despues, hl, hu, ha⟩
    refine ⟨(strictEq_some _ _).2 hu, antes, despues, hl, ?_⟩
    intro v hv
    have hne := ha v hv
    cases hs : strictEq v.email (some email) with
    | false => rfl
    | true => exact absurd ((strictEq_some _ _).1 hs) hne

theorem postRegister_of_existe (bc : Bcrypt) (usuarios : List Usuario)
    (email password salt : String) (he : email ≠ "") (hp : password ≠ "")
    (h : ∃ u ∈ usuarios, u.email = email) :
    postRegister bc usuarios ⟨some email, some password⟩ salt
      = ⟨some ⟨400, .message "El usuario ya existe"⟩, none⟩ := by
  have hs : (usuarios.find? (fun u => strictEq u.email (some email))).isSome = true := by
    rw [List.find?_isSome]
    obtain ⟨u, hu, hue⟩ := h
    exact ⟨u, hu, (strictEq_some _ _).2 hue⟩
  simp [postRegister, truthy, he, hp, hs]

theorem postRegister_of_nuevo (bc : Bcrypt) (usuarios : List Usuario)
    (email password salt : String) (he : email ≠ "") (hp : password ≠ "")
    (h : ∀ u ∈ usuarios, u.email ≠ email) :
    postRegister bc usuarios ⟨some email, some password⟩ salt
      = ⟨some ⟨201, .message "Usuario registrado correctamente"⟩,
          some (usuarios ++ [⟨usuarios.length + 1, email, bc.hash password 10 salt⟩])⟩ := by
  have hs : usuarios.find? (fun u => strictEq u.email (some email)) = none := by
    rw [List.find?_eq_none]
    intro u hu hue
    exact h u hu ((strictEq_some _ _).1 hue)
  simp [postRegister, truthy, he, hp, hs]

/-- Every run of `postRegister` is one of three: a 400 for a missing field, a
400 for an email already stored, both without saving; or a 201 that saves the
array with one record appended, whose email was in no record before. -/
theorem postRegister_casos (bc : Bcrypt) (usuarios : List Usuario) (body : Credenciales)
    (salt : String) :
    postRegister bc usuarios body salt
        = ⟨some ⟨400, .message "Email y contraseña son obligatorios"⟩, none⟩
      ∨ postRegister bc usuarios body salt
        = ⟨some ⟨400, .message "El usuario ya existe"⟩, none⟩
      ∨ ∃ email password, email ≠ "" ∧ password ≠ ""
        ∧ body = ⟨some email, some password⟩
        ∧ (∀ u ∈ usuarios, u.email ≠ email)
        ∧ postRegister bc usuarios body salt
          = ⟨some ⟨201, .message "Usuario registrado correctamente"⟩,
              some (usuarios ++ [⟨usuarios.length + 1, email, bc.hash password 10 salt⟩])⟩ := by
  obtain ⟨email, password⟩ := body
  by_cases hm : truthy email = true ∧ truthy password = true
  · obtain ⟨h1, h2⟩ := hm
    cases email with
    | none => simp [truthy] at h1
    | some e =>
      cases password with
      | none => simp [truthy] at h2
      | some p =>
        have he : e ≠ "" := by simpa [truthy] using h1
        have hp : p ≠ "" := by simpa [truthy] using h2
        by_cases hx : ∃ u ∈ usuarios, u.email = e
        · right; left
          exact postRegister_of_existe bc usuarios e p salt he hp hx
        · right; right
          have hx2 : ∀ u ∈ usuarios, u.email ≠ e := fun u hu hue => hx ⟨u, hu, hue⟩
          exact ⟨e, p, he, hp, rfl, hx2, postRegister_of_nuevo bc usuarios e p salt he hp hx2⟩
  · left
    have : (!truthy email || !truthy password) = true := by
      cases h1 : truthy email <;> cases h2 : truthy password <;> simp_all
    simp [postRegister, this]

theorem postLogin_of_valido (bc : Bcrypt) (jwt : Jwt) (now : Nat) (usuarios : List Usuario)
    (email password : String) (u : Usuario) (hu : PrimerUsuario usuarios email u)
    (hc : bc.compare password u.password = true) :
    postLogin bc jwt now usuarios ⟨some email, some password⟩
      = ⟨some ⟨200, .messageToken "Login exitoso"
            (jwt.sign ⟨u.id, u.email⟩ SECRET_KEY "1h" now)⟩, none⟩ := by
  have hf := (find?_email_iff usuarios email u).2 hu
  simp [postLogin, hf, bcryptCompare, hc]

theorem postLogin_of_no_valido (bc : Bcrypt) (jwt : Jwt) (now : Nat)
    (usuarios : List Usuario) (email password : String)
    (hn : ¬ ∃ u, PrimerUsuario usuarios email u ∧ bc.compare password u.password = true) :
    postLogin bc jwt now usuarios ⟨some email, some password⟩
      = ⟨some ⟨401, .message "Credenciales inválidas"⟩, none⟩ := by
  cases hf : usuarios.find? (fun u => strictEq u.email (some email)) with
  | none => simp [postLogin, hf]
  | some u =>
    have hu := (find?_email_iff usuarios email u).1 hf
    have hc : bc.compare password u.password = false := by
      cases hb : bc.compare password u.password with
      | false => rfl
      | true => exact absurd ⟨u, hu, hb⟩ hn
    simp [postLogin, hf, bcryptCompare, hc]

theorem postLogin_guardado (bc : Bcrypt) (jwt : Jwt) (now : Nat) (usuarios : List Usuario)
    (body : Credenciales) : (postLogin bc jwt now usuarios body).guardado = none := by
  unfold postLogin
  split
  · rfl
  · split
    · rfl
    · split <;> rfl

theorem atender_casos (bc : Bcrypt) (jwt : Jwt) (usuarios : List Usuario) (p : Peticion) :
    atender bc jwt usuarios p = usuarios
      ∨ ∃ email digest, (∀ u ∈ usuarios, u.email ≠ email)
        ∧ atender bc jwt usuarios p = usuarios ++ [⟨usuarios.length + 1, email, digest⟩] := by
  cases p with
  | register body salt =>
    rcases postRegister_casos bc usuarios body salt with h | h | ⟨e, p, _, _, _, hn, h⟩
    · left; simp [atender, archivo, h]
    · left; simp [atender, archivo, h]
    · right; exact ⟨e, bc.hash p 10 salt, hn, by simp [atender, archivo, h]⟩
  | login body now =>
    left; simp [atender, archivo, postLogin_guardado]

theorem emailsDistintos_append (usuarios : List Usuario) (u : Usuario)
    (h : emailsDistintos usuarios) (hn : ∀ v ∈ usuarios, v.email ≠ u.email) :
    emailsDistintos (usuarios ++ [u]) := by
  unfold emailsDistintos at *
  rw [List.pairwise_append]
  refine ⟨h, List.pairwise_singleton _ _, ?_⟩
  intro a ha b hb
  simp at hb
  subst hb
  exact hn a ha


theorem foldl_atender_inv (bc : Bcrypt) (jwt : Jwt) (Inv : List Usuario → Prop)
    (paso : ∀ usuarios p, Inv usuarios → Inv (atender bc jwt usuarios p))
    (ps : List Peticion) (usuarios : List Usuario) (h : Inv usuarios) :
    Inv (ps.foldl (atender bc jwt) usuarios) := by
  induction ps generalizing usuarios with
  | nil => exact h
  | cons p ps ih => exact ih _ (paso usuarios p h)

theorem atender_emailsDistintos (bc : Bcrypt) (jwt : Jwt) (usuarios : List Usuario)
    (p : Peticion) (h : emailsDistintos usuarios) :
    emailsDistintos (atender bc jwt usuarios p) := by
  rcases atender_casos bc jwt usuarios p with he | ⟨email, digest, hn, he⟩
  · rw [he]; exact h
  · rw [he]; exact emailsDistintos_append usuarios _ h hn

theorem atender_ids (bc : Bcrypt) (jwt : Jwt) (usuarios : List Usuario) (p : Peticion)
    (h : ∀ k u, usuarios.get? k = some u → u.id = k + 1) :
    ∀ k u, (atender bc jwt usuarios p).get? k = some u → u.id = k + 1 := by
  rcases atender_casos bc jwt usuarios p with he | ⟨email, digest, _, he⟩
  · rw [he]; exact h
  · rw [he]
    intro k u hk
    by_cases hlt : k < usuarios.length
    · rw [List.get?_eq_getElem?, List.getElem?_append_left hlt] at hk
      exact h k u (by rw [List.get?_eq_getElem?]; exact hk)
    · have hge : usuarios.length ≤ k := Nat.le_of_not_lt hlt
      rw [List.get?_eq_getElem?, List.getElem?_append_right hge] at hk
      cases hd : k - usuarios.length with
      | zero =>
        rw [hd] at hk
        simp at hk
        subst hk
        show usuarios.length + 1 = k + 1
        omega
      | succ n =>
        rw [hd] at hk
        simp at hk

/-! ## The user store: claims -/

/-- On login bodies that carry both an email and a password string, and only on
those: `POST /login` replies 200 with a token exactly when the store has a
record with that email and the password verifies against the digest of the
first such record; the token is then `jwt.sign` of that record's `{ id, email }`
under `SECRET_KEY` with `expiresIn` one hour. Otherwise it replies 401
'Credenciales inválidas', a body without a token. It never saves the store. -/
theorem postLogin_con_campos (bc : Bcrypt) (jwt : Jwt) (now : Nat)
    (usuarios : List Usuario) (email password : String) :
    (∀ u, PrimerUsuario usuarios email u → bc.compare password u.password = true →
        (postLogin bc jwt now usuarios ⟨some email, some password⟩).respuesta
          = some ⟨200, .messageToken "Login exitoso"
              (jwt.sign ⟨u.id, u.email⟩ SECRET_KEY "1h" now)⟩)
      ∧ ((¬ ∃ u, PrimerUsuario usuarios email u ∧ bc.compare password u.password = true) →
        (postLogin bc jwt now usuarios ⟨some email, some password⟩).respuesta
          = some ⟨401, .message "Credenciales inválidas"⟩)
      ∧ ((∃ token, (postLogin bc jwt now usuarios ⟨some email, some password⟩).respuesta
            = some ⟨200, .messageToken "Login exitoso" token⟩)
          ↔ ∃ u, PrimerUsuario usuarios email u ∧ bc.compare password u.password = true)
      ∧ (postLogin bc jwt now usuarios ⟨some email, some password⟩).guardado = none
      ∧ archivo usuarios (postLogin bc jwt now usuarios ⟨some email, some password⟩)
          = usuarios := by
  have hok : ∀ u, PrimerUsuario usuarios email u → bc.compare password u.password = true →
      (postLogin bc jwt now usuarios ⟨some email, some password⟩).respuesta
        = some ⟨200, .messageToken "Login exitoso"
            (jwt.sign ⟨u.id, u.email⟩ SECRET_KEY "1h" now)⟩ := by
    intro u hu hc
    rw [postLogin_of_valido bc jwt now usuarios email password u hu hc]
  have hno : (¬ ∃ u, PrimerUsuario usuarios email u ∧ bc.compare password u.password = true) →
      (postLogin bc jwt now usuarios ⟨some email, some password⟩).respuesta
        = some ⟨401, .message "Credenciales inválidas"⟩ := by
    intro hn
    rw [postLogin_of_no_valido bc jwt now usuarios email password hn]
  refine ⟨hok, hno, ?_, postLogin_guardado _ _ _ _ _, ?_⟩
  · constructor
    · rintro ⟨token, ht⟩
      by_contra hn
      rw [hno hn] at ht
      simp at ht
    · rintro ⟨u, hu, hc⟩
      exact ⟨_, hok u hu hc⟩
  · simp [archivo, postLogin_guardado]

/-- An instance of `postLogin_con_campos`: with the reference libraries, the
login of `a@b` with password `pw` at clock 2 on a store whose first record for
`a@b` has digest `pw$s` receives the token of that record. -/
theorem postLogin_con_campos_ejemplo :
    (postLogin bcryptModelo jwtModelo 2
        [⟨1, "x@y", "q$t"⟩, ⟨2, "a@b", "pw$s"⟩, ⟨3, "a@b", "zz$s"⟩]
        ⟨some "a@b", some "pw"⟩).respuesta
      = some ⟨200, .messageToken "Login exitoso" "ii.nn.a@b"⟩ :=
  (postLogin_con_campos bcryptModelo jwtModelo 2
      [⟨1, "x@y", "q$t"⟩, ⟨2, "a@b", "pw$s"⟩, ⟨3, "a@b", "zz$s"⟩] "a@b" "pw").1
    ⟨2, "a@b", "pw$s"⟩
    ⟨[⟨1, "x@y", "q$t"⟩], [⟨3, "a@b", "zz$s"⟩], rfl, rfl, by decide⟩ (by decide)

/-- C4, where the code departs from it: on a store that holds `a@b`, the login
body `{ email: 'a@b' }` without a password makes `bcrypt.compare` reject on
line 125, so lines 130-134 are never reached: the handler sends no reply, in
particular not the 401 'Credenciales inválidas', and saves nothing. For every
store and every email, a login without a password is answered 401 only when no
record has that email, and is left without a reply whenever one has. -/
theorem postLogin_sin_password :
    (postLogin bcryptModelo jwtModelo 2 [⟨1, "a@b", "pw$s"⟩] ⟨some "a@b", none⟩).respuesta
        = none
      ∧ (postLogin bcryptModelo jwtModelo 2 [⟨1, "a@b", "pw$s"⟩] ⟨some "a@b", none⟩).respuesta
        ≠ some ⟨401, .message "Credenciales inválidas"⟩
      ∧ (postLogin bcryptModelo jwtModelo 2 [⟨1, "a@b", "pw$s"⟩] ⟨some "a@b", none⟩).guardado
        = none
      ∧ (postRegister bcryptModelo [⟨1, "a@b", "pw$s"⟩] ⟨some "a@b", none⟩ "t").respuesta
        = some ⟨400, .message "Email y contraseña son obligatorios"⟩
      ∧ (∀ (bc : Bcrypt) (jwt : Jwt) (now : Nat) (usuarios : List Usuario) (email : String),
          (postLogin bc jwt now usuarios ⟨some email, none⟩).respuesta
            = if usuarios.any (fun u => decide (u.email = email)) then none
              else some ⟨401, .message "Credenciales inválidas"⟩) := by
  refine ⟨by decide, by decide, by decide, by decide, ?_⟩
  intro bc jwt now usuarios email
  cases hf : usuarios.find? (fun u => strictEq u.email (some email)) with
  | none =>
    have hany : usuarios.any (fun u => decide (u.email = email)) = false := by
      rw [List.any_eq_false]
      intro u hu hue
      have := (List.find?_eq_none.1 hf) u hu
      exact this ((strictEq_some _ _).2 (of_decide_eq_true hue))
    simp [postLogin, hf, hany]
  | some u =>
    have hp : strictEq u.email (some email) = true := (List.find?_eq_some.1 hf).1
    have hany : usuarios.any (fun u => decide (u.email = email)) = true := by
      rw [List.any_eq_true]
      exact ⟨u, List.mem_of_find?_eq_some hf, decide_eq_true ((strictEq_some _ _).1 hp)⟩
    simp [postLogin, hf, bcryptCompare, hany]

/-- C5: for every user store and every registration with non-empty email and
password whose email is the email of a stored record, `POST /register` replies
400 'El usuario ya existe', does not save, and the store is unchanged. -/
theorem postRegister_duplicado (bc : Bcrypt) (usuarios : List Usuario)
    (email password salt : String) (he : email ≠ "") (hp : password ≠ "")
    (h : ∃ u ∈ usuarios, u.email = email) :
    (postRegister bc usuarios ⟨some email, some password⟩ salt).respuesta
        = some ⟨400, .message "El usuario ya existe"⟩
      ∧ (postRegister bc usuarios ⟨some email, some password⟩ salt).guardado = none
      ∧ archivo usuarios (postRegister bc usuarios ⟨some email, some password⟩ salt)
          = usuarios := by
  rw [postRegister_of_existe bc usuarios email password salt he hp h]
  exact ⟨rfl, rfl, rfl⟩

/-- Witness for C5: registering `a@b` again on a store that holds it. -/
theorem postRegister_duplicado_witness :
    (postRegister bcryptModelo [⟨1, "a@b", "pw$s"⟩] ⟨some "a@b", some "other"⟩ "t").respuesta
        = some ⟨400, .message "El usuario ya existe"⟩
      ∧ (postRegister bcryptModelo [⟨1, "a@b", "pw$s"⟩] ⟨some "a@b", some "other"⟩ "t").guardado
        = none
      ∧ archivo [⟨1, "a@b", "pw$s"⟩]
          (postRegister bcryptModelo [⟨1, "a@b", "pw$s"⟩] ⟨some "a@b", some "other"⟩ "t")
        = [⟨1, "a@b", "pw$s"⟩] :=
  postRegister_duplicado bcryptModelo [⟨1, "a@b", "pw$s"⟩] "a@b" "other" "t"
    (by decide) (by decide) ⟨⟨1, "a@b", "pw$s"⟩, by simp, rfl⟩

/-- C6: if the records of the store have pairwise distinct emails before a
`POST /register`, they have pairwise distinct emails after it, whatever the
request and its outcome; hence in every store reached from the empty one by a
sequence of register and login requests, two records at different places never
share an email. -/
theorem emails_unicos (bc : Bcrypt) (jwt : Jwt) :
    (∀ (usuarios : List Usuario) (body : Credenciales) (salt : String),
        emailsDistintos usuarios →
        emailsDistintos (archivo usuarios (postRegister bc usuarios body salt)))
      ∧ (∀ ps : List Peticion, emailsDistintos (ejecutar bc jwt ps))
      ∧ (∀ (ps : List Peticion) (i j : Nat) (u v : Usuario), i ≠ j →
          (ejecutar bc jwt ps).get? i = some u → (ejecutar bc jwt ps).get? j = some v →
          u.email ≠ v.email) := by
  have hreach : ∀ ps : List Peticion, emailsDistintos (ejecutar bc jwt ps) := by
    intro ps
    exact foldl_atender_inv bc jwt emailsDistintos (atender_emailsDistintos bc jwt) ps []
      List.Pairwise.nil
  refine ⟨?_, hreach, ?_⟩
  · intro usuarios body salt h
    exact atender_emailsDistintos bc jwt usuarios (.register body salt) h
  · intro ps i j u v hij hi hj
    have hp := hreach ps
    unfold emailsDistintos at hp
    rw [List.get?_eq_getElem?] at hi hj
    obtain ⟨hi1, hi2⟩ := List.getElem?_eq_some_iff.1 hi
    obtain ⟨hj1, hj2⟩ := List.getElem?_eq_some_iff.1 hj
    rcases Nat.lt_or_gt_of_ne hij with hlt | hgt
    · have h := (List.pairwise_iff_getElem.1 hp) i j hi1 hj1 hlt
      rw [hi2, hj2] at h
      exact h
    · intro he
      have h := (List.pairwise_iff_getElem.1 hp) j i hj1 hi1 hgt
      rw [hi2, hj2] at h
      exact h he.symm


/-- Witness for C6: a first registration of `c@d` on a one-record store with
another email keeps the emails distinct. -/
theorem emails_unicos_witness :
    emailsDistintos [⟨1, "a@b", "pw$s"⟩]
      ∧ emailsDistintos (archivo [⟨1, "a@b", "pw$s"⟩]
          (postRegister bcryptModelo [⟨1, "a@b", "pw$s"⟩] ⟨some "c@d", some "pw"⟩ "t")) :=
  have h : emailsDistintos [⟨1, "a@b", "pw$s"⟩] := List.pairwise_singleton _ _
  ⟨h, (emails_unicos bcryptModelo jwtModelo).1 [⟨1, "a@b", "pw$s"⟩]
    ⟨some "c@d", some "pw"⟩ "t" h⟩

/-- C7: every `POST /register` answered 201 saves the previous array with
exactly one record appended, whose id is the previous number of records plus
one; so in every store reached from the empty one by sequentially handled
requests the record at place `k` (counting from one) has id `k`, and all ids
are positive and pairwise distinct. -/
theorem postRegister_ids (bc : Bcrypt) (jwt : Jwt) :
    (∀ (usuarios : List Usuario) (body : Credenciales) (salt : String),
        (postRegister bc usuarios body salt).respuesta
          = some ⟨201, .message "Usuario registrado correctamente"⟩ →
        ∃ u, archivo usuarios (postRegister bc usuarios body salt) = usuarios ++ [u]
          ∧ u.id = usuarios.length + 1)
      ∧ (∀ (ps : List Peticion) (k : Nat) (u : Usuario),
          (ejecutar bc jwt ps).get? k = some u → u.id = k + 1)
      ∧ (∀ (ps : List Peticion), ∀ u ∈ ejecutar bc jwt ps, 0 < u.id)
      ∧ (∀ (ps : List Peticion), ((ejecutar bc jwt ps).map (fun u => u.id)).Nodup) := by
  have hk : ∀ (ps : List Peticion) (k : Nat) (u : Usuario),
      (ejecutar bc jwt ps).get? k = some u → u.id = k + 1 := by
    intro ps
    exact foldl_atender_inv bc jwt (fun us => ∀ k u, us.get? k = some u → u.id = k + 1)
      (atender_ids bc jwt) ps [] (by intro k u h; simp at h)
  refine ⟨?_, hk, ?_, ?_⟩
  · intro usuarios body salt h201
    rcases postRegister_casos bc usuarios body salt with h | h | ⟨e, p, _, _, _, _, h⟩
    · rw [h] at h201; simp at h201
    · rw [h] at h201; simp at h201
    · exact ⟨_, by rw [h]; rfl, rfl⟩
  · intro ps u hu
    obtain ⟨k, hkk⟩ := List.get?_of_mem hu
    rw [hk ps k u hkk]
    exact Nat.succ_pos k
  · intro ps
    rw [List.nodup_iff_injective_get]
    intro i j hij
    have hi : (ejecutar bc jwt ps).get? i.1 = some ((ejecutar bc jwt ps).get ⟨i.1, by
        have := i.2; simpa using this⟩) := List.get?_eq_get _
    have hj : (ejecutar bc jwt ps).get? j.1 = some ((ejecutar bc jwt ps).get ⟨j.1, by
        have := j.2; simpa using this⟩) := List.get?_eq_get _
    have h1 := hk ps _ _ hi
    have h2 := hk ps _ _ hj
    simp only [List.get_eq_getElem, List.getElem_map] at hij h1 h2
    rw [h1, h2] at hij
    exact Fin.ext (Nat.succ.inj hij)

/-- Witness for C7: the first registration on a one-record store appends the
record with id 2. -/
theorem postRegister_ids_witness :
    ∃ u, archivo [⟨1, "a@b", "pw$s"⟩]
          (postRegister bcryptModelo [⟨1, "a@b", "pw$s"⟩] ⟨some "c@d", some "pw"⟩ "t")
        = [⟨1, "a@b", "pw$s"⟩] ++ [u] ∧ u.id = [(⟨1, "a@b", "pw$s"⟩ : Usuario)].length + 1 :=
  (postRegister_ids bcryptModelo jwtModelo).1 [⟨1, "a@b", "pw$s"⟩]
    ⟨some "c@d", some "pw"⟩ "t" (by decide)

/-- C8: for every user store and every non-empty email and password such that
no stored record has that email, `POST /register` replies 201, and a following
`POST /login` with the same email and password on the resulting store replies
200 with a token that `jwt.verify` accepts before its expiry, resolving to the
id and the email of the record just registered; this for a hasher whose
`compare` accepts every digest `hash` makes of the same plaintext and a token
service whose `verify` returns the claims it signed until one hour has passed. -/
theorem register_luego_login (bc : Bcrypt) (jwt : Jwt) (usuarios : List Usuario)
    (email password salt : String) (now t : Nat)
    (he : email ≠ "") (hp : password ≠ "")
    (hnuevo : ∀ u ∈ usuarios, u.email ≠ email)
    (hbc : ∀ p rounds s, bc.compare p (bc.hash p rounds s) = true)
    (hjwt : ∀ (c : Payload) (iat clock : Nat), clock < iat + 3600 →
      jwt.verify (jwt.sign c SECRET_KEY "1h" iat) SECRET_KEY clock
        = .ok ⟨c.id, c.email, iat, iat + 3600⟩)
    (ht : t < now + 3600) :
    (postRegister bc usuarios ⟨some email, some password⟩ salt).respuesta
        = some ⟨201, .message "Usuario registrado correctamente"⟩
      ∧ ∃ nuevo token c,
          archivo usuarios (postRegister bc usuarios ⟨some email, some password⟩ salt)
            = usuarios ++ [nuevo]
          ∧ (postLogin bc jwt now
              (archivo usuarios (postRegister bc usuarios ⟨some email, some password⟩ salt))
              ⟨some email, some password⟩).respuesta
            = some ⟨200, .messageToken "Login exitoso" token⟩
          ∧ jwt.verify token SECRET_KEY t = .ok c
          ∧ c.id = nuevo.id ∧ c.email = nuevo.email
          ∧ nuevo.id = usuarios.length + 1 ∧ nuevo.email = email := by
  rw [postRegister_of_nuevo bc usuarios email password salt he hp hnuevo]
  refine ⟨rfl, ⟨usuarios.length + 1, email, bc.hash password 10 salt⟩,
    jwt.sign ⟨usuarios.length + 1, email⟩ SECRET_KEY "1h" now,
    ⟨usuarios.length + 1, email, now, now + 3600⟩, rfl, ?_, hjwt _ _ _ ht, rfl, rfl, rfl, rfl⟩
  have hprim : PrimerUsuario (usuarios ++ [⟨usuarios.length + 1, email, bc.hash password 10 salt⟩])
      email ⟨usuarios.length + 1, email, bc.hash password 10 salt⟩ :=
    ⟨usuarios, [], rfl, rfl, hnuevo⟩
  have hlogin := postLogin_of_valido bc jwt now _ email password _ hprim (hbc _ _ _)
  exact congrArg Resultado.respuesta hlogin


/-! ## The reference libraries satisfy the laws assumed of the real ones -/

theorem contar_replicate (c d : Char) (n : Nat) (rest : List Char) (h : d ≠ c) :
    contar c (List.replicate n c ++ d :: rest) = (n, d :: rest) := by
  induction n with
  | zero => simp [contar, h]
  | succ n ih => simp [List.replicate_succ, contar, ih]

theorem jwtModelo_verify_sign (c : Payload) (iat clock : Nat) (h : clock < iat + 3600) :
    jwtModelo.verify (jwtModelo.sign c SECRET_KEY "1h" iat) SECRET_KEY clock
      = .ok ⟨c.id, c.email, iat, iat + 3600⟩ := by
  simp only [jwtModelo]
  rw [contar_replicate 'i' '.' c.id _ (by decide)]
  simp only
  rw [contar_replicate 'n' '.' iat _ (by decide)]
  simp [h]

theorem bcryptModelo_compare_hash (p : String) (rounds : Nat) (s : String) :
    bcryptModelo.compare p (bcryptModelo.hash p rounds s) = true := by
  have hd : (p ++ "$" ++ s).data = (p.data ++ ['$']) ++ s.data := by
    simp only [String.data_append]
  simp only [bcryptModelo, hd, decide_eq_true_eq]
  have hl : p.data.length + 1 = (p.data ++ ['$']).length := by simp
  rw [hl]
  exact List.take_left _ _

/-- Witness for C8: registering `c@d` with password `pw` on a one-record store
and logging in at clock 2 yields the token of the new record, id 2, which the
reference token service still accepts at clock 100. -/
theorem register_luego_login_witness :
    (postRegister bcryptModelo [⟨1, "a@b", "pw$s"⟩] ⟨some "c@d", some "pw"⟩ "t").respuesta
        = some ⟨201, .message "Usuario registrado correctamente"⟩
      ∧ ∃ nuevo token c,
          archivo [⟨1, "a@b", "pw$s"⟩]
              (postRegister bcryptModelo [⟨1, "a@b", "pw$s"⟩] ⟨some "c@d", some "pw"⟩ "t")
            = [⟨1, "a@b", "pw$s"⟩] ++ [nuevo]
          ∧ (postLogin bcryptModelo jwtModelo 2
              (archivo [⟨1, "a@b", "pw$s"⟩]
                (postRegister bcryptModelo [⟨1, "a@b", "pw$s"⟩] ⟨some "c@d", some "pw"⟩ "t"))
              ⟨some "c@d", some "pw"⟩).respuesta
            = some ⟨200, .messageToken "Login exitoso" token⟩
          ∧ jwtModelo.verify token SECRET_KEY 100 = .ok c
          ∧ c.id = nuevo.id ∧ c.email = nuevo.email
          ∧ nuevo.id = [(⟨1, "a@b", "pw$s"⟩ : Usuario)].length + 1 ∧ nuevo.email = "c@d" :=
  register_luego_login bcryptModelo jwtModelo [⟨1, "a@b", "pw$s"⟩] "c@d" "pw" "t" 2 100
    (by decide) (by decide) (by decide) bcryptModelo_compare_hash jwtModelo_verify_sign
    (by decide)


/-! ## The task handlers: lemmas -/

theorem digitChar_toNat : ∀ d, d < 10 → (Nat.digitChar d).toNat = 48 + d := by
  decide

theorem esCifra_digitChar (d : Nat) (h : d < 10) : esCifra (Nat.digitChar d) := by
  unfold esCifra
  rw [digitChar_toNat d h]
  omega

theorem toDigitsCore_append (fuel n : Nat) (ds : List Char) :
    Nat.toDigitsCore 10 fuel n ds = Nat.toDigitsCore 10 fuel n [] ++ ds := by
  induction fuel generalizing n ds with
  | zero => simp [Nat.toDigitsCore]
  | succ fuel ih =>
    simp only [Nat.toDigitsCore]
    split
    · simp
    · rw [ih (n / 10) (Nat.digitChar (n % 10) :: ds), ih (n / 10) [Nat.digitChar (n % 10)]]
      simp

theorem toDigitsCore_valor (fuel n : Nat) (h : n < fuel) :
    (∀ c ∈ Nat.toDigitsCore 10 fuel n [], esCifra c)
      ∧ Nat.toDigitsCore 10 fuel n [] ≠ []
      ∧ valor 0 (Nat.toDigitsCore 10 fuel n []) = n := by
  induction fuel generalizing n with
  | zero => omega
  | succ fuel ih =>
    simp only [Nat.toDigitsCore]
    have hd : n % 10 < 10 := Nat.mod_lt _ (by decide)
    split
    · rename_i h0
      refine ⟨?_, by simp, ?_⟩
      · intro c hc
        simp at hc
        subst hc
        exact esCifra_digitChar _ hd
      · simp only [valor, List.foldl, digitChar_toNat _ hd]
        omega
    · rename_i h0
      have hlt : n / 10 < fuel := by omega
      obtain ⟨h1, h2, h3⟩ := ih (n / 10) hlt
      rw [toDigitsCore_append]
      refine ⟨?_, by simp, ?_⟩
      · intro c hc
        simp at hc
        rcases hc with hc | hc
        · exact h1 c hc
        · subst hc
          exact esCifra_digitChar _ hd
      · unfold valor at *
        rw [List.foldl_append, h3]
        simp only [List.foldl, digitChar_toNat _ hd]
        omega

theorem valorDigito_cifra (c : Char) (h : esCifra c) : valorDigito c = some (c.toNat - 48) := by
  unfold esCifra at h
  simp [valorDigito, h.1, h.2]

theorem leerDigitos_cifras (l : List Char) (acc : Option Nat) (h : ∀ c ∈ l, esCifra c)
    (hne : l ≠ []) : leerDigitos 10 l acc = some (valor (acc.getD 0) l) := by
  induction l generalizing acc with
  | nil => exact absurd rfl hne
  | cons c l ih =>
    have hc : esCifra c := h c (by simp)
    have hlt : c.toNat - 48 < 10 := by
      unfold esCifra at hc
      omega
    simp only [leerDigitos, valorDigito_cifra c hc, hlt, if_true]
    cases l with
    | nil => simp [leerDigitos, valor]
    | cons c2 l2 =>
      rw [ih (some (acc.getD 0 * 10 + (c.toNat - 48))) (fun x hx => h x (by simp [hx]))
        (by simp)]
      simp [valor]

theorem esCifra_props (c : Char) (h : esCifra c) :
    esEspacio c = false ∧ c ≠ '-' ∧ c ≠ '+' ∧ c ≠ 'x' ∧ c ≠ 'X' := by
  unfold esCifra at h
  refine ⟨?_, ?_, ?_, ?_, ?_⟩
  · have : ¬ (c.toNat ∈ [0x09, 0x0A, 0x0B, 0x0C, 0x0D, 0x20, 0xA0, 0x1680, 0x2028, 0x2029,
        0x202F, 0x205F, 0x3000, 0xFEFF] ∨ (0x2000 ≤ c.toNat ∧ c.toNat ≤ 0x200A)) := by
      simp only [List.mem_cons, List.mem_singleton, List.not_mem_nil, or_false]
      omega
    unfold esEspacio
    exact decide_eq_false this
  all_goals
    intro he
    subst he
    revert h
    decide

theorem parseInt_cifras (s : String) (h : ∀ c ∈ s.data, esCifra c) (hne : s.data ≠ []) :
    parseInt s = some (valor 0 s.data : Int) := by
  obtain ⟨l⟩ := s
  simp only at h hne
  cases l with
  | nil => exact absurd rfl hne
  | cons c l =>
    have hc := esCifra_props c (h c (by simp))
    have hdrop : List.dropWhile esEspacio (c :: l) = c :: l := by
      simp [List.dropWhile, hc.1]
    unfold parseInt
    simp only [hdrop]
    have hs : (match c :: l with
        | '-' :: r => ((-1 : Int), r)
        | '+' :: r => (1, r)
        | _ => (1, c :: l)) = (1, c :: l) := by
      split
      · rename_i heq
        simp at heq
        exact absurd heq.1 hc.2.1
      · rename_i heq
        simp at heq
        exact absurd heq.1 hc.2.2.1
      · rfl
    rw [hs]
    have hb : (match c :: l with
        | '0' :: 'x' :: r => (16, r)
        | '0' :: 'X' :: r => (16, r)
        | _ => (10, c :: l)) = (10, c :: l) := by
      split
      · rename_i heq
        simp at heq
        have := esCifra_props 'x' (h 'x' (by simp [heq.2]))
        exact absurd rfl this.2.2.2.1
      · rename_i heq
        simp at heq
        have := esCifra_props 'X' (h 'X' (by simp [heq.2]))
        exact absurd rfl this.2.2.2.2
      · rfl
    simp only [hb, leerDigitos_cifras (c :: l) none h hne]
    simp

theorem parseInt_toString (n : Nat) : parseInt (toString n) = some (n : Int) := by
  have h := toDigitsCore_valor (n + 1) n (Nat.lt_succ_self n)
  have hd : (toString n).data = Nat.toDigitsCore 10 (n + 1) n [] := rfl
  rw [parseInt_cifras (toString n) (by rw [hd]; exact h.1) (by rw [hd]; exact h.2.1), hd, h.2.2]


theorem idEq_some (tid n : Nat) : idEq tid (some (n : Int)) = true ↔ tid = n := by
  simp only [idEq, beq_iff_eq, Option.some.injEq, Nat.cast_inj]
  exact eq_comm

theorem postTareas_of_campos (tareas : List Tarea) (titulo descripcion : String)
    (ht : titulo ≠ "") (hd : descripcion ≠ "") :
    postTareas tareas ⟨some titulo, some descripcion⟩
      = ⟨some ⟨201, .messageTarea "Tarea creada correctamente"
            ⟨tareas.length + 1, titulo, descripcion⟩⟩,
          some (tareas ++ [⟨tareas.length + 1, titulo, descripcion⟩])⟩ := by
  simp [postTareas, truthy, ht, hd]

theorem getTareas_of_next (jwt : Jwt) (now : Nat) (authHeader : Option String)
    (tareas : List Tarea) (h : (autenticarToken jwt now authHeader none).next = 1) :
    getTareas jwt now authHeader tareas = some ⟨200, .tareas tareas⟩ := by
  simp [getTareas, h]

theorem deleteTareas_of_mem (tareas : List Tarea) (n : Nat) (h : ∃ t ∈ tareas, t.id = n) :
    deleteTareas tareas (toString n)
      = ⟨some ⟨200, .message "Tarea eliminada correctamente"⟩,
          some (tareas.filter (fun t => !idEq t.id (some (n : Int))))⟩ := by
  have hlen : tareas.length ≠ (tareas.filter (fun t => !idEq t.id (some (n : Int)))).length := by
    intro he
    have hall := (List.filter_length_eq_length).1 he.symm
    obtain ⟨t, ht, htn⟩ := h
    have := hall t ht
    rw [(idEq_some t.id n).2 htn] at this
    simp at this
  simp [deleteTareas, parseInt_toString, hlen]

/-! ## The task handlers: claims -/

/-- C9: for every task collection and every non-empty titulo and descripcion,
`POST /tareas` replies 201 with a task of those fields and a positive id, and
the collection an authenticated `GET /tareas` then returns contains that task;
a following `DELETE /tareas/:id` with that id written in decimal replies 200,
and the collection an authenticated `GET /tareas` then returns has no task with
that id. -/
theorem tarea_ida_y_vuelta (jwt : Jwt) (now1 now2 : Nat) (auth1 auth2 : Option String)
    (tareas : List Tarea) (titulo descripcion : String)
    (ht : titulo ≠ "") (hd : descripcion ≠ "")
    (h1 : (autenticarToken jwt now1 auth1 none).next = 1)
    (h2 : (autenticarToken jwt now2 auth2 none).next = 1) :
    ∃ nueva : Tarea,
      (postTareas tareas ⟨some titulo, some descripcion⟩).respuesta
          = some ⟨201, .messageTarea "Tarea creada correctamente" nueva⟩
        ∧ nueva.titulo = titulo ∧ nueva.descripcion = descripcion ∧ 0 < nueva.id
        ∧ (∃ lista, getTareas jwt now1 auth1
              (archivo tareas (postTareas tareas ⟨some titulo, some descripcion⟩))
            = some ⟨200, .tareas lista⟩ ∧ nueva ∈ lista)
        ∧ (deleteTareas (archivo tareas (postTareas tareas ⟨some titulo, some descripcion⟩))
            (toString nueva.id)).respuesta
          = some ⟨200, .message "Tarea eliminada correctamente"⟩
        ∧ (∃ lista, getTareas jwt now2 auth2
              (archivo (archivo tareas (postTareas tareas ⟨some titulo, some descripcion⟩))
                (deleteTareas
                  (archivo tareas (postTareas tareas ⟨some titulo, some descripcion⟩))
                  (toString nueva.id)))
            = some ⟨200, .tareas lista⟩ ∧ ∀ t ∈ lista, t.id ≠ nueva.id) := by
  rw [postTareas_of_campos tareas titulo descripcion ht hd]
  refine ⟨⟨tareas.length + 1, titulo, descripcion⟩, rfl, rfl, rfl, Nat.succ_pos _, ?_, ?_, ?_⟩
  · exact ⟨_, getTareas_of_next jwt now1 auth1 _ h1, by simp [archivo]⟩
  · simp only [archivo, Option.getD_some]
    rw [deleteTareas_of_mem _ (tareas.length + 1)
      ⟨⟨tareas.length + 1, titulo, descripcion⟩, by simp, rfl⟩]
  · simp only [archivo, Option.getD_some]
    rw [deleteTareas_of_mem _ (tareas.length + 1)
      ⟨⟨tareas.length + 1, titulo, descripcion⟩, by simp, rfl⟩]
    refine ⟨_, getTareas_of_next jwt now2 auth2 _ h2, ?_⟩
    intro t hmem hid
    simp only [Option.getD_some] at hmem
    have hm := (List.mem_filter.1 hmem).2
    rw [(idEq_some t.id (tareas.length + 1)).2 hid] at hm
    simp at hm

/-- Witness for C9: creating a task on a one-task collection and reading it
back with the header `Bearer ii.n.a@b` on the reference token service. -/
theorem tarea_ida_y_vuelta_witness :
    ∃ nueva : Tarea,
      (postTareas [⟨1, "x", "y"⟩] ⟨some "A", some "B"⟩).respuesta
          = some ⟨201, .messageTarea "Tarea creada correctamente" nueva⟩
        ∧ nueva.titulo = "A" ∧ nueva.descripcion = "B" ∧ 0 < nueva.id
        ∧ (∃ lista, getTareas jwtModelo 5 (some "Bearer ii.n.a@b")
              (archivo [⟨1, "x", "y"⟩] (postTareas [⟨1, "x", "y"⟩] ⟨some "A", some "B"⟩))
            = some ⟨200, .tareas lista⟩ ∧ nueva ∈ lista)
        ∧ (deleteTareas (archivo [⟨1, "x", "y"⟩]
              (postTareas [⟨1, "x", "y"⟩] ⟨some "A", some "B"⟩))
            (toString nueva.id)).respuesta
          = some ⟨200, .message "Tarea eliminada correctamente"⟩
        ∧ (∃ lista, getTareas jwtModelo 6 (some "Bearer ii.n.a@b")
              (archivo (archivo [⟨1, "x", "y"⟩]
                  (postTareas [⟨1, "x", "y"⟩] ⟨some "A", some "B"⟩))
                (deleteTareas
                  (archivo [⟨1, "x", "y"⟩] (postTareas [⟨1, "x", "y"⟩] ⟨some "A", some "B"⟩))
                  (toString nueva.id)))
            = some ⟨200, .tareas lista⟩ ∧ ∀ t ∈ lista, t.id ≠ nueva.id) :=
  tarea_ida_y_vuelta jwtModelo 5 6 (some "Bearer ii.n.a@b") (some "Bearer ii.n.a@b")
    [⟨1, "x", "y"⟩] "A" "B" (by decide) (by decide) (by decide) (by decide)

/-- C10: task ids are reused after a deletion. Starting from the empty
collection, create, create, delete id 1, create leaves two different tasks
with id 2, the id being the length of the collection plus one; a `DELETE` of
id 2 then removes both, and a `PUT` of id 2 changes the first of them only. -/
theorem ids_de_tarea_reutilizados :
    archivo [] (postTareas [] ⟨some "A", some "B"⟩) = [⟨1, "A", "B"⟩]
      ∧ archivo [⟨1, "A", "B"⟩] (postTareas [⟨1, "A", "B"⟩] ⟨some "C", some "D"⟩)
          = [⟨1, "A", "B"⟩, ⟨2, "C", "D"⟩]
      ∧ archivo [⟨1, "A", "B"⟩, ⟨2, "C", "D"⟩]
          (deleteTareas [⟨1, "A", "B"⟩, ⟨2, "C", "D"⟩] "1") = [⟨2, "C", "D"⟩]
      ∧ archivo [⟨2, "C", "D"⟩] (postTareas [⟨2, "C", "D"⟩] ⟨some "E", some "F"⟩)
          = [⟨2, "C", "D"⟩, ⟨2, "E", "F"⟩]
      ∧ (⟨2, "C", "D"⟩ : Tarea) ≠ ⟨2, "E", "F"⟩
      ∧ deleteTareas [⟨2, "C", "D"⟩, ⟨2, "E", "F"⟩] "2"
          = ⟨some ⟨200, .message "Tarea eliminada correctamente"⟩, some []⟩
      ∧ putTareas [⟨2, "C", "D"⟩, ⟨2, "E", "F"⟩] "2" ⟨some "Z", none⟩
          = ⟨some ⟨200, .messageTarea "Tarea actualizada correctamente" ⟨2, "Z", "D"⟩⟩,
              some [⟨2, "Z", "D"⟩, ⟨2, "E", "F"⟩]⟩
      ∧ (∀ (tareas : List Tarea) (body : Campos) (m : String) (t : Tarea),
          (postTareas tareas body).respuesta = some ⟨201, .messageTarea m t⟩ →
          t.id = tareas.length + 1) := by
  refine ⟨by decide, by decide, by decide, by decide, by decide, rfl, rfl, ?_⟩
  intro tareas body m t h
  unfold postTareas at h
  split at h
  · simp at h
  · simp at h
    rw [← h.2]

end AppTarea
